import Mathlib

/-!
# Verification of the copy-paste-webrtc manual signaling core

A shallow embedding of the signaling codec, QR transport adapter,
WebRTC service and connection controller of the `copy-paste-webrtc`
repository, together with proofs of the specified properties.

Sources embedded:
* `src/js/lib/helpers.js` — `encodeToBase64`, `decodeFromBase64`,
  `isValidSignalData`, `isValidUrl`, `extractHashFromUrl`,
  `getOptimalQRErrorCorrection`
* `src/js/services/SignalingService.js` — `createOfferUrl`,
  `createAnswerCode`, `parseOffer`, `parseAnswer`, `getOfferFromHash`
* `src/js/services/QRCodeService.js` — `validateDecodedQR`,
  `decodeQRFromBlob`
* `src/js/services/WebRTCService.js` — `waitForICECandidates`,
  `handleRemoteICECandidate`, `cleanup`, and the event-driven
  media-negotiation flow
* `src/js/store/mutations.js`, `src/js/store/actions.js`,
  `src/js/controllers/ConnectionController.js`

Platform primitives (`btoa`, `atob`, `JSON.stringify`/`JSON.parse` on the
envelope shape, the WHATWG `URL` constructor, `String.prototype.startsWith`)
are modelled explicitly below; each model carries a doc comment saying what
it models.
-/

/-! ## Base64: a model of the platform `btoa` / `atob` primitives -/

/-- Character for a sextet value, following the standard base64 alphabet
(uppercase letters, lowercase letters, digits, `+`, `/`) used by the
platform `btoa`/`atob`. -/
def b64Char (n : Nat) : Char :=
  if n < 26 then Char.ofNat (65 + n)
  else if n < 52 then Char.ofNat (71 + n)
  else if n < 62 then Char.ofNat (n - 4)
  else if n = 62 then '+'
  else '/'

/-- The standard base64 alphabet as a list. -/
def b64Chars : List Char := (List.range 64).map b64Char

/-- Sextet value of an alphabet character (`none` for a non-alphabet char). -/
def b64Index (c : Char) : Option Nat := b64Chars.findIdx? (fun x => x == c)

/-- Base64-encode a byte sequence, three bytes to four characters,
with `=` padding, exactly as `btoa` does. -/
def b64EncodeBytes : List Nat → List Char
  | [] => []
  | [a] => [b64Char (a / 4), b64Char (a % 4 * 16), '=', '=']
  | [a, b] => [b64Char (a / 4), b64Char (a % 4 * 16 + b / 16), b64Char (b % 16 * 4), '=']
  | a :: b :: c :: rest =>
    b64Char (a / 4) :: b64Char (a % 4 * 16 + b / 16) ::
    b64Char (b % 16 * 4 + c / 64) :: b64Char (c % 64) :: b64EncodeBytes rest

/-- Base64-decode a character sequence back to bytes; `none` on input
`atob` would reject (padding is required and only allowed at the end). -/
def b64DecodeBytes : List Char → Option (List Nat)
  | [] => some []
  | c1 :: c2 :: c3 :: c4 :: rest =>
    match b64Index c1, b64Index c2 with
    | some a, some b =>
      if c3 = '=' then
        if c4 = '=' ∧ rest = [] then some [a * 4 + b / 16] else none
      else
        match b64Index c3 with
        | some c =>
          if c4 = '=' then
            if rest = [] then some [a * 4 + b / 16, b % 16 * 16 + c / 4] else none
          else
            match b64Index c4, b64DecodeBytes rest with
            | some d, some tail =>
              some ((a * 4 + b / 16) :: (b % 16 * 16 + c / 4) :: (c % 4 * 64 + d) :: tail)
            | _, _ => none
        | none => none
    | _, _ => none
  | _ => none

/-- Holds (`true`) when every character of the string fits in one byte:
the domain on which the platform `btoa` succeeds (Latin-1). -/
def latin1 (s : String) : Bool := s.toList.all fun c => c.toNat < 256

/-- Models the platform `btoa` primitive: base64-encodes the string's
code points as bytes; `none` models the `InvalidCharacterError` thrown
on a code point above 255. -/
def btoa (s : String) : Option String :=
  if latin1 s then some (String.mk (b64EncodeBytes (s.toList.map Char.toNat)))
  else none

/-- Models the platform `atob` primitive: base64-decodes back to a
string of one-byte code points; `none` models the error on invalid input. -/
def atob (s : String) : Option String :=
  (b64DecodeBytes s.toList).map fun bs => String.mk (bs.map Char.ofNat)

/-! ## JSON envelope: a model of `JSON.stringify` / `JSON.parse` on the
signaling envelope shape -/

/-- Lowercase hex digit character for a value below 16, as
`JSON.stringify` emits in `\u00XX` escapes. -/
def hexDigit (n : Nat) : Char :=
  if n < 10 then Char.ofNat (48 + n)
  else if n < 16 then Char.ofNat (87 + n)
  else Char.ofNat 48

/-- Numeric value of a hex digit character (either case), as `JSON.parse`
reads the four digits of a `\u` escape; `none` for a non-hex character. -/
def hexVal (c : Char) : Option Nat :=
  let n := c.toNat
  if 48 ≤ n ∧ n ≤ 57 then some (n - 48)
  else if 97 ≤ n ∧ n ≤ 102 then some (n - 87)
  else if 65 ≤ n ∧ n ≤ 70 then some (n - 55)
  else none

def jsonEscapeChar (c : Char) : List Char :=
  if c = '"' then ['\\', '"']
  else if c = '\\' then ['\\', '\\']
  else if c = Char.ofNat 8 then ['\\', 'b']
  else if c = Char.ofNat 9 then ['\\', 't']
  else if c = Char.ofNat 10 then ['\\', 'n']
  else if c = Char.ofNat 12 then ['\\', 'f']
  else if c = Char.ofNat 13 then ['\\', 'r']
  else if c.toNat < 32 then
    ['\\', 'u', '0', '0', hexDigit (c.toNat / 16), hexDigit (c.toNat % 16)]
  else [c]

def jsonEscape (l : List Char) : List Char := (l.map jsonEscapeChar).flatten

def parseJSONStringBody : List Char → Option (List Char × List Char)
  | [] => none
  | c :: rest =>
    if c = '"' then some ([], rest)
    else if c = '\\' then
      match rest with
      | [] => none
      | e :: r =>
        if e = '"' then (parseJSONStringBody r).map fun p => ('"' :: p.1, p.2)
        else if e = '\\' then (parseJSONStringBody r).map fun p => ('\\' :: p.1, p.2)
        else if e = '/' then (parseJSONStringBody r).map fun p => ('/' :: p.1, p.2)
        else if e = 'b' then (parseJSONStringBody r).map fun p => (Char.ofNat 8 :: p.1, p.2)
        else if e = 't' then (parseJSONStringBody r).map fun p => (Char.ofNat 9 :: p.1, p.2)
        else if e = 'n' then (parseJSONStringBody r).map fun p => (Char.ofNat 10 :: p.1, p.2)
        else if e = 'f' then (parseJSONStringBody r).map fun p => (Char.ofNat 12 :: p.1, p.2)
        else if e = 'r' then (parseJSONStringBody r).map fun p => (Char.ofNat 13 :: p.1, p.2)
        else if e = 'u' then
          match r with
          | h1 :: h2 :: h3 :: h4 :: r2 =>
            match hexVal h1, hexVal h2, hexVal h3, hexVal h4 with
            | some a, some b, some c', some d =>
              (parseJSONStringBody r2).map fun p =>
                (Char.ofNat (((a * 16 + b) * 16 + c') * 16 + d) :: p.1, p.2)
            | _, _, _, _ => none
          | _ => none
        else none
    else (parseJSONStringBody rest).map fun p => (c :: p.1, p.2)

/-- The signaling envelope `\x7btype, sdp\x7d` exchanged between peers
(the object built in `SignalingService.createOfferUrl` / `createAnswerCode`
and checked by `helpers.isValidSignalData`). -/
structure SignalData where
  type : String
  sdp : String
deriving DecidableEq, Repr

/-- Models `JSON.stringify` applied to the envelope object
`\x7btype: ..., sdp: ...\x7d` as built by this repository's encoders:
both fields are strings, serialized in declaration order with standard
JSON string escaping and no whitespace. -/
def jsonStringifySignal (d : SignalData) : String :=
  String.mk ('\x7b' :: '"' :: 't' :: 'y' :: 'p' :: 'e' :: '"' :: ':' :: '"' ::
    (jsonEscape d.type.toList ++ '"' :: ',' :: '"' :: 's' :: 'd' :: 'p' :: '"' :: ':' :: '"' ::
      (jsonEscape d.sdp.toList ++ ['"', '\x7d'])))

/-- Models `JSON.parse` restricted to the envelope grammar
`\x7b"type":<string>,"sdp":<string>\x7d` that this repository's encoders emit
(the only JSON shape the decode paths under verification receive);
`none` models a parse error. -/
def jsonParseSignal (s : String) : Option SignalData :=
  match s.toList with
  | '\x7b' :: '"' :: 't' :: 'y' :: 'p' :: 'e' :: '"' :: ':' :: '"' :: rest =>
    match parseJSONStringBody rest with
    | some (tval, ',' :: '"' :: 's' :: 'd' :: 'p' :: '"' :: ':' :: '"' :: rest2) =>
      match parseJSONStringBody rest2 with
      | some (sval, ['\x7d']) => some ⟨String.mk tval, String.mk sval⟩
      | _ => none
    | _ => none
  | _ => none

/-! ## helpers.js -/

/-- Embeds `helpers.encodeToBase64`: `btoa(JSON.stringify(data))`;
`none` models the rethrown `Encoding failed` error. -/
def encodeToBase64 (data : SignalData) : Option String :=
  btoa (jsonStringifySignal data)

/-- Embeds `helpers.decodeFromBase64`: `JSON.parse(atob(encoded))`;
`none` models the rethrown `Decoding failed` error. -/
def decodeFromBase64 (encoded : String) : Option SignalData :=
  (atob encoded).bind jsonParseSignal

/-- Embeds `helpers.isValidSignalData`: the envelope's `type` must equal the
expected type and `sdp` must be a non-empty string. (That the envelope is
an object and `sdp` a string is enforced by the `SignalData` type here.) -/
def isValidSignalData (data : SignalData) (expectedType : String) : Bool :=
  data.type == expectedType && decide (0 < data.sdp.length)

/-- Part of the WHATWG `URL` constructor model: scans the remainder of a
scheme for its terminating `:`. -/
def schemeRest : List Char → Bool
  | [] => false
  | c :: rest =>
    if c = ':' then true
    else (c.isAlphanum || c = '+' || c = '-' || c = '.') && schemeRest rest

/-- Models the success condition of the WHATWG `URL` constructor used by
`helpers.isValidUrl` and `helpers.extractHashFromUrl`: the string must begin
with a scheme (ASCII letter, then letters/digits/`+`/`-`/`.`) terminated by
`:`. -/
def hasURLScheme : List Char → Bool
  | [] => false
  | c :: rest => c.isAlpha && schemeRest rest

/-- Models the WHATWG `URL` fragment: everything after the first `#`
(empty when there is no `#` or nothing follows it). -/
def fragmentOf : List Char → List Char
  | [] => []
  | '#' :: rest => rest
  | _ :: rest => fragmentOf rest

/-- Embeds `helpers.isValidUrl`: `new URL(str)` succeeds. -/
def isValidUrl (s : String) : Bool := hasURLScheme s.toList

/-- Embeds `helpers.extractHashFromUrl`: `new URL(url).hash.slice(1) || null`,
with `null` (here `none`) both when the URL constructor throws and when the
fragment is empty. -/
def extractHashFromUrl (url : String) : Option String :=
  if hasURLScheme url.toList then
    match fragmentOf url.toList with
    | [] => none
    | frag => some (String.mk frag)
  else none

/-- Embeds `helpers.getOptimalQRErrorCorrection`: the size-to-robustness table. -/
def getOptimalQRErrorCorrection (data : String) : String :=
  if data.length < 500 then "H"
  else if data.length < 1000 then "Q"
  else if data.length < 1500 then "M"
  else "L"

/-- Robustness rank of a QR error-correction level (H > Q > M > L). -/
def ecRobustness (level : String) : Nat :=
  if level = "H" then 3
  else if level = "Q" then 2
  else if level = "M" then 1
  else 0

/-! ## Error message constants (src/js/config/constants.js) -/

def INVALID_OFFER : String := "❌ Invalid offer data"

def INVALID_ANSWER : String := "❌ Invalid answer code"

def INVALID_QR : String := "❌ No QR code found in image"

def QR_WRONG_TYPE_OFFER : String := "❌ This doesn't look like an offer QR code"

def QR_WRONG_TYPE_ANSWER : String := "❌ This looks like an offer, not an answer"

def CONNECTION_FAILED : String := "❌ Connection failed"

/-! ## SignalingService (src/js/services/SignalingService.js) -/

/-- Embeds `SignalingService.createOfferUrl`: wraps the encoded offer envelope in
`origin + pathname + '#' + encoded`; `base` stands for
`window.location.origin + window.location.pathname`. `none` models the
propagated encoding error. -/
def createOfferUrl (base sdp : String) : Option String :=
  (encodeToBase64 ⟨"offer", sdp⟩).map fun encoded => base ++ "#" ++ encoded

/-- Embeds `SignalingService.createAnswerCode`: the bare encoded answer envelope. -/
def createAnswerCode (sdp : String) : Option String :=
  encodeToBase64 ⟨"answer", sdp⟩

/-- Embeds `SignalingService.parseOffer`: URL-or-hash detection, base64+JSON
decode, then the mandatory `isValidSignalData(data, 'offer')` check;
every failure is reported as `INVALID_OFFER`. -/
def parseOffer (input : String) : Except String SignalData :=
  if isValidUrl input then
    match extractHashFromUrl input with
    | none => .error INVALID_OFFER
    | some hashData =>
      match decodeFromBase64 hashData with
      | none => .error INVALID_OFFER
      | some data =>
        if isValidSignalData data "offer" then .ok data else .error INVALID_OFFER
  else
    match decodeFromBase64 input with
    | none => .error INVALID_OFFER
    | some data =>
      if isValidSignalData data "offer" then .ok data else .error INVALID_OFFER

/-- Embeds `SignalingService.parseAnswer`: base64+JSON decode then the mandatory
`isValidSignalData(data, 'answer')` check; every failure is reported as
`INVALID_ANSWER`. -/
def parseAnswer (encoded : String) : Except String SignalData :=
  match decodeFromBase64 encoded with
  | none => .error INVALID_ANSWER
  | some data =>
    if isValidSignalData data "answer" then .ok data else .error INVALID_ANSWER

/-- The spec's single Signaling Codec entry point
`decode(envelope, expectedKind)`; in the source it is realized by the two
call-site-specific functions `parseOffer` and `parseAnswer`. -/
def codecDecode (envelope : String) (expectedKind : String) : Except String SignalData :=
  if expectedKind = "offer" then parseOffer envelope else parseAnswer envelope

/-- The spec's Signaling Codec `encode(payload)` entry point: the envelope
encoding shared by `createOfferUrl` and `createAnswerCode`. -/
def codecEncode (payload : SignalData) : Option String :=
  encodeToBase64 payload

/-! ## QRCodeService (src/js/services/QRCodeService.js) -/

/-- Models `String.prototype.startsWith`. -/
def jsStartsWith (s pre : String) : Bool := pre.toList.isPrefixOf s.toList

/-- Result object returned by `QRCodeService.validateDecodedQR`:
`\x7btype, data, raw\x7d`. -/
structure QRResult where
  type : String
  data : String
  raw : String
deriving DecidableEq, Repr

/-- Embeds `QRCodeService.validateDecodedQR`: context-dependent validation
of a pixel-decoded QR string. In the offer context a URL is accepted when
it merely has a non-empty fragment; otherwise the string must base64+JSON
decode to an object whose `type` field equals the context. -/
def validateDecodedQR (decoded : String) (expectedContext : String) :
    Except String QRResult :=
  if expectedContext = "offer" then
    if jsStartsWith decoded "http" then
      if hasURLScheme decoded.toList then
        match fragmentOf decoded.toList with
        | [] => .error QR_WRONG_TYPE_OFFER
        | frag => .ok ⟨"offer", String.mk frag, decoded⟩
      else .error QR_WRONG_TYPE_OFFER
    else
      match (atob decoded).bind jsonParseSignal with
      | some data =>
        if data.type = "offer" then .ok ⟨"offer", decoded, decoded⟩
        else .error QR_WRONG_TYPE_OFFER
      | none => .error QR_WRONG_TYPE_OFFER
  else if expectedContext = "answer" then
    if jsStartsWith decoded "http" then .error QR_WRONG_TYPE_ANSWER
    else
      match (atob decoded).bind jsonParseSignal with
      | some data =>
        if data.type = "answer" then .ok ⟨"answer", decoded, decoded⟩
        else .error QR_WRONG_TYPE_OFFER
      | none => .error QR_WRONG_TYPE_OFFER
  else .error INVALID_QR

/-- Embeds `QRCodeService.decodeQRFromBlob`: the pixel decoding of the
image blob is an external capability, modelled by the `pixelDecoded`
parameter (`none` when no decoder finds a code); the decoded string is then
passed to `validateDecodedQR` with the expected context. -/
def decodeQRFromBlob (pixelDecoded : Option String) (expectedContext : String) :
    Except String QRResult :=
  match pixelDecoded with
  | none => .error INVALID_QR
  | some decoded => validateDecodedQR decoded expectedContext

/-! ## CONFIG (src/js/config/webrtc.js) -/

def ICE_GATHERING_TIMEOUT : Nat := 5000

def MEDIA_NEGOTIATION_DELAY : Nat := 500

/-! ## WebRTCService.waitForICECandidates (src/js/services/WebRTCService.js) -/

/-- ICE gathering state of a peer connection (platform-provided). -/
inductive IceGatheringState where
  | new
  | gathering
  | complete
deriving DecidableEq, Repr

/-- First time (ms) at which an `icegatheringstatechange` event in the
trace reports the `complete` state. -/
def firstCompleteTime : List (Nat × IceGatheringState) → Option Nat
  | [] => none
  | (t, st) :: rest => if st = .complete then some t else firstCompleteTime rest

/-- Embeds `WebRTCService.waitForICECandidates` as a function from the
gathering-event trace to the time at which its promise resolves: it
resolves immediately when gathering is already complete, at the first
`complete` event otherwise, and in any case no later than the
`ICE_GATHERING_TIMEOUT` fallback timer, after which it proceeds with
whatever candidates were gathered. The event trace is time-ordered;
events after the timeout cannot resolve the promise earlier. -/
def waitForICEResolveTime (initial : IceGatheringState)
    (events : List (Nat × IceGatheringState)) : Nat :=
  if initial = .complete then 0
  else
    match firstCompleteTime events with
    | some t => min t ICE_GATHERING_TIMEOUT
    | none => ICE_GATHERING_TIMEOUT

/-! ## WebRTCService.handleRemoteICECandidate (src/js/services/WebRTCService.js) -/

/-- The media peer connection as far as remote candidates are concerned:
the list of remote ICE candidates applied so far, in application order. -/
structure MediaPc where
  applied : List Nat
deriving DecidableEq, Repr

/-- Embeds `WebRTCService.handleRemoteICECandidate`: a remote candidate is
applied only when `this.mediaPc` exists and the message carries a
candidate; otherwise the call does nothing (the candidate is skipped). -/
def handleRemoteICECandidate (mediaPc : Option MediaPc) (candidate : Option Nat) :
    Option MediaPc :=
  match mediaPc, candidate with
  | some m, some c => some ⟨m.applied ++ [c]⟩
  | m, _ => m

/-- An event affecting the media peer connection's remote-candidate flow:
an `ice-candidate` data-channel message, or the creation of the media peer
connection (`sendMediaOffer` / `processMediaOffer`), after which the
negotiator is ready to accept candidates. -/
inductive MediaCandidateEvent where
  | candidate (id : Nat)
  | negotiatorReady
deriving DecidableEq, Repr

/-- Runs a sequence of candidate arrivals and negotiator-readiness events
against `handleRemoteICECandidate`. `negotiatorReady` creates a fresh
media peer connection (`createMediaPeerConnection`), with no candidates
applied yet. -/
def runMediaCandidateEvents (mediaPc : Option MediaPc) :
    List MediaCandidateEvent → Option MediaPc
  | [] => mediaPc
  | .candidate c :: rest =>
    runMediaCandidateEvents (handleRemoteICECandidate mediaPc (some c)) rest
  | .negotiatorReady :: rest => runMediaCandidateEvents (some ⟨[]⟩) rest

/-! ## Store (src/js/store/state.js, mutations.js, actions.js) -/

/-- The reactive store's state (src/js/store/state.js), with media streams
modelled by their presence. -/
structure StoreState where
  connectionState : String
  role : Option String
  buttonState : String
  videoMode : String
  qrPasteContext : String
  localStream : Bool
  remoteStream : Bool
  micEnabled : Bool
  cameraEnabled : Bool
  offerUrl : Option String
  answerCode : Option String
  isProcessing : Bool
  isLoading : Bool
  error : Option String
deriving DecidableEq, Repr

/-- Initial application state (src/js/store/state.js). -/
def initialStoreState : StoreState where
  connectionState := "idle"
  role := none
  buttonState := "initial"
  videoMode := "split"
  qrPasteContext := "offer"
  localStream := false
  remoteStream := false
  micEnabled := true
  cameraEnabled := true
  offerUrl := none
  answerCode := none
  isProcessing := false
  isLoading := false
  error := none

/-- Embeds the `reset` mutation (src/js/store/mutations.js): restores the
listed fields to their initial values; `localStream`, `qrPasteContext`,
`micEnabled` and `cameraEnabled` are (deliberately) not touched. -/
def Mutations.reset (s : StoreState) : StoreState :=
  { s with
    connectionState := "idle"
    role := none
    buttonState := "initial"
    videoMode := "split"
    remoteStream := false
    offerUrl := none
    answerCode := none
    isProcessing := false
    isLoading := false
    error := none }

/-- Embeds the `connectEstablished` action (src/js/store/actions.js). -/
def Actions.connectEstablished (s : StoreState) : StoreState :=
  { s with
    connectionState := "connected"
    buttonState := "connected"
    isProcessing := false
    isLoading := false }

/-- Embeds the `connectionFailed` action (src/js/store/actions.js). -/
def Actions.connectionFailed (s : StoreState) (err : String) : StoreState :=
  { s with
    connectionState := "failed"
    error := some err
    isProcessing := false
    isLoading := false }

/-! ## WebRTCService object state (src/js/services/WebRTCService.js) -/

/-- The `WebRTCService` instance fields relevant to the claims, with the
two peer connections and the data channel modelled by their presence. -/
structure WebRTCState where
  pc : Bool
  mediaPc : Bool
  dataChannel : Bool
  role : Option String
  connectionEstablished : Bool
deriving DecidableEq, Repr

/-- Embeds `WebRTCService.cleanup`: closes and nulls both peer connections
and the data channel and clears `connectionEstablished`; each close is
guarded by a presence check, so no call can throw, and `this.role` is
(deliberately) kept. -/
def WebRTCService.cleanup (w : WebRTCState) : WebRTCState :=
  { w with
    pc := false
    mediaPc := false
    dataChannel := false
    connectionEstablished := false }

/-! ## ConnectionController (src/js/controllers/ConnectionController.js) -/

/-- The controller-level state: the WebRTC service, the store, the URL
fragment (`location.hash` without the `#`), and whether `location.reload()`
has been requested. -/
structure CtrlState where
  webrtc : WebRTCState
  store : StoreState
  urlHash : Option String
  reloaded : Bool
deriving DecidableEq, Repr

/-- Embeds `SignalingService.hasOfferInHash` / `getOfferFromHash`: when the
location has a non-empty fragment, parse it with `parseOffer`, turning a
parse error into `null` (`none`). -/
def getOfferFromHash (urlHash : Option String) : Option SignalData :=
  match urlHash with
  | none => none
  | some h =>
    if h.length = 0 then none
    else
      match parseOffer h with
      | .ok data => some data
      | .error _ => none

/-- Embeds `ConnectionController.handleOfferFromHash` (responder flow).
The WebRTC answer produced by `createAnswer` is external input, passed as
`answerSdp` (`none` models a WebRTC-level failure). On success the store
keeps `isProcessing = true` and only clears `isLoading`; on any thrown
error the catch block records the error and clears both flags. -/
def ConnectionController.handleOfferFromHash (s : CtrlState)
    (answerSdp : Option String) : CtrlState :=
  let st1 := { s.store with isProcessing := true, isLoading := true }
  match getOfferFromHash s.urlHash with
  | none =>
    { s with store := { st1 with
        error := some INVALID_OFFER, isProcessing := false, isLoading := false } }
  | some _offerData =>
    let w1 := { s.webrtc with role := some "responder", pc := true }
    match answerSdp with
    | none =>
      { s with
        webrtc := w1
        store := { st1 with
          role := some "responder"
          error := some CONNECTION_FAILED
          isProcessing := false
          isLoading := false } }
    | some sdp =>
      match createAnswerCode sdp with
      | none =>
        { s with
          webrtc := w1
          store := { st1 with
            role := some "responder"
            error := some "Encoding failed"
            isProcessing := false
            isLoading := false } }
      | some code =>
        { s with
          webrtc := w1
          store := { st1 with
            role := some "responder"
            answerCode := some code
            buttonState := "responder-share"
            isLoading := false } }

/-- Embeds `ConnectionController.startAsInitiator`. Guarded by
`store.state.isProcessing`. The WebRTC offer produced by `createOffer` is
external input, passed as `offerSdp` (`none` models a WebRTC-level
failure); `base` stands for `window.location.origin + pathname`. On
success the store keeps `isProcessing = true` and only clears `isLoading`;
on any thrown error the catch block records the error and clears both
flags. -/
def ConnectionController.startAsInitiator (s : CtrlState)
    (offerSdp : Option String) (base : String) : CtrlState :=
  if s.store.isProcessing then s
  else
    let st1 := { s.store with
      isProcessing := true, isLoading := true, role := some "initiator" }
    let w1 := { s.webrtc with role := some "initiator", pc := true }
    match offerSdp with
    | none =>
      { s with
        webrtc := w1
        store := { st1 with
          error := some CONNECTION_FAILED
          isProcessing := false
          isLoading := false } }
    | some sdp =>
      match createOfferUrl base sdp with
      | none =>
        { s with
          webrtc := w1
          store := { st1 with
            error := some "Encoding failed"
            isProcessing := false
            isLoading := false } }
      | some url =>
        { s with
          webrtc := w1
          store := { st1 with
            offerUrl := some url
            buttonState := "initiator-share"
            isLoading := false } }

/-- Embeds `ConnectionController.processAnswer`. Guarded by
`store.state.isProcessing` (returns immediately, state unchanged).
Otherwise sets the flags, parses the answer and applies it; on success
both `isProcessing` and `isLoading` remain set until the connection
events clear them; on a parse or WebRTC error the catch block records the
error and clears both flags. -/
def ConnectionController.processAnswer (s : CtrlState) (answerCode : String) :
    CtrlState :=
  if s.store.isProcessing then s
  else
    let st1 := { s.store with isProcessing := true, isLoading := true }
    match parseAnswer answerCode with
    | .error e =>
      { s with store := { st1 with
          error := some e, isProcessing := false, isLoading := false } }
    | .ok _data =>
      if s.webrtc.pc then { s with store := st1 }
      else
        { s with store := { st1 with
            error := some "Peer connection not initialized"
            isProcessing := false
            isLoading := false } }

/-- Embeds `ConnectionController.processQRCode`: decodes and validates the
QR blob for the given context; on a validation error the error propagates
to the caller and no state is touched. In the offer context the validated
data is placed in the URL hash (`setHashFromOffer`) and `handleOfferFromHash`
runs; in the answer context `processAnswer` runs. Returns the new state
and the outcome (`none` inside `ok` models the `undefined` return for an
unknown context). -/
def ConnectionController.processQRCode (s : CtrlState)
    (pixelDecoded : Option String) (context : String) (answerSdp : Option String) :
    CtrlState × Except String (Option String) :=
  match decodeQRFromBlob pixelDecoded context with
  | .error e => (s, .error e)
  | .ok result =>
    if context = "offer" then
      let s1 := { s with urlHash := some result.data }
      (ConnectionController.handleOfferFromHash s1 answerSdp,
        .ok (some "✅ Offer received"))
    else if context = "answer" then
      (ConnectionController.processAnswer s result.data,
        .ok (some "✅ Answer received"))
    else (s, .ok none)

/-- Embeds `ConnectionController.reset`: `webrtc.cleanup()`, stop the
remote stream's tracks when present, clear the URL hash, and dispatch the
`resetToInitial` action (the `reset` mutation). Every step is guarded, so
the calls cannot throw. -/
def ConnectionController.reset (s : CtrlState) : CtrlState :=
  { s with
    webrtc := WebRTCService.cleanup s.webrtc
    store := Mutations.reset s.store
    urlHash := none }

/-- Embeds `ConnectionController.closeConnection`: `webrtc.cleanup()`,
stop all local media tracks, clear the URL hash and request
`location.reload()` — the terminal (`Closed`) outcome of a session. -/
def ConnectionController.closeConnection (s : CtrlState) : CtrlState :=
  { s with
    webrtc := WebRTCService.cleanup s.webrtc
    urlHash := none
    reloaded := true }

/-! ## Orchestration trace model (ConnectionController event handlers +
WebRTCService media negotiation) -/

/-- Combined controller/service state for the sequencing claims.
`everConnected` is a history (ghost) flag recording that
`data-connection-established` has been emitted at some point;
`mediaNegotiationPending` records that the handler's awaited
`delay(MEDIA_NEGOTIATION_DELAY)` continuation is outstanding (nothing in
`reset`/`cleanup` cancels this timer). `manualLog` records the payload
kinds handed to the manual (copy/paste/QR) transport, `dcLog` the message
types sent over the data channel. -/
structure SysState where
  role : Option String
  pc : Bool
  mediaPc : Bool
  dataChannelOpen : Bool
  connectionEstablished : Bool
  mediaNegotiationPending : Bool
  localStream : Bool
  everConnected : Bool
  manualLog : List String
  dcLog : List String
deriving DecidableEq, Repr

/-- Events driving the orchestration flow: the two user entry points, the
platform connection callbacks, the settle-delay timer, data-channel
message delivery, and user reset. -/
inductive SysEvent where
  | startAsInitiator
  | offerFromHash
  | pcConnected
  | mediaDelayElapsed
  | dataChannelOpened
  | dcMediaOffer
  | dcMediaAnswer
  | reset
deriving DecidableEq, Repr

/-- One step of the orchestration flow, embedded from
`ConnectionController.setupEventHandlers`, `startAsInitiator`,
`handleOfferFromHash`, `reset` and `WebRTCService.createDataConnection`,
`startMediaNegotiation`, `sendMediaOffer`, `processMediaOffer`:

* `startAsInitiator` / `offerFromHash` assign the role, create the data
  peer connection and hand the offer URL (resp. answer code) to the manual
  transport;
* `pcConnected` fires when `connectionState === 'connected'` while
  `connectionEstablished` is still false: the handler sets the flag and
  schedules `startMediaNegotiation` after `MEDIA_NEGOTIATION_DELAY`;
* `mediaDelayElapsed` runs the scheduled `startMediaNegotiation`: with a
  local stream and the initiator role, `sendMediaOffer` creates the media
  peer connection and then calls `dataChannel.send` — which only delivers
  when the channel is open (otherwise the send throws and nothing is
  sent);
* `dataChannelOpened` fires when the channel reports open; the platform
  reports the peer connection connected (and the `connectionstatechange`
  handler has run) before the channel opens;
* `dcMediaOffer` (delivery requires an open channel) runs
  `processMediaOffer` when a local stream exists: creates the media peer
  connection and sends `media-answer` back over the channel;
* `reset` runs `WebRTCService.cleanup` (the role is kept and the pending
  settle-delay timer is not cancelled). -/
def sysStep (s : SysState) (e : SysEvent) : SysState :=
  match e with
  | .startAsInitiator =>
    { s with role := some "initiator", pc := true,
             manualLog := s.manualLog ++ ["offer"] }
  | .offerFromHash =>
    { s with role := some "responder", pc := true,
             manualLog := s.manualLog ++ ["answer"] }
  | .pcConnected =>
    if s.pc && !s.connectionEstablished then
      { s with connectionEstablished := true, everConnected := true,
               mediaNegotiationPending := true }
    else s
  | .mediaDelayElapsed =>
    if s.mediaNegotiationPending then
      if s.localStream then
        if s.role = some "initiator" then
          if s.dataChannelOpen then
            { s with mediaNegotiationPending := false, mediaPc := true,
                     dcLog := s.dcLog ++ ["media-offer"] }
          else { s with mediaNegotiationPending := false, mediaPc := true }
        else { s with mediaNegotiationPending := false }
      else { s with mediaNegotiationPending := false }
    else s
  | .dataChannelOpened =>
    if s.pc && s.connectionEstablished then { s with dataChannelOpen := true } else s
  | .dcMediaOffer =>
    if s.dataChannelOpen && s.localStream then
      { s with mediaPc := true, dcLog := s.dcLog ++ ["media-answer"] }
    else s
  | .dcMediaAnswer => s
  | .reset =>
    { s with pc := false, mediaPc := false, dataChannelOpen := false,
             connectionEstablished := false }

/-- The state before any user action: `init()` has acquired the local
media stream; nothing else exists. -/
def sysInit : SysState where
  role := none
  pc := false
  mediaPc := false
  dataChannelOpen := false
  connectionEstablished := false
  mediaNegotiationPending := false
  localStream := true
  everConnected := false
  manualLog := []
  dcLog := []

/-- Runs an event trace from the initial state. -/
def sysRun (events : List SysEvent) : SysState := events.foldl sysStep sysInit

/-- The sequencing invariant: a media peer connection implies the data
connection has reported connected at some earlier point, the manual
transport only ever carried control offer/answer payloads, and media
payloads travelled only on the data channel. -/
def sysInv (s : SysState) : Prop :=
  (s.mediaPc = true → s.everConnected = true) ∧
  (s.mediaNegotiationPending = true → s.everConnected = true) ∧
  (s.connectionEstablished = true → s.everConnected = true) ∧
  (s.dataChannelOpen = true → s.everConnected = true) ∧
  (∀ m ∈ s.manualLog, m = "offer" ∨ m = "answer") ∧
  (∀ m ∈ s.dcLog, m = "media-offer" ∨ m = "media-answer")

/-! ## Supporting lemmas and claim theorems -/

theorem b64Index_b64Char : ∀ n : Nat, n < 64 → b64Index (b64Char n) = some n := by decide

theorem b64Char_ne_eq : ∀ n : Nat, n < 64 → b64Char n ≠ '=' := by decide

theorem b64_decode_encode :
    ∀ (bs : List Nat), (∀ b ∈ bs, b < 256) →
      b64DecodeBytes (b64EncodeBytes bs) = some bs
  | [], _ => rfl
  | [a], h => by
    have ha : a < 256 := h a (by simp)
    have h1 : a / 4 < 64 := by omega
    have h2 : a % 4 * 16 < 64 := by omega
    simp only [b64EncodeBytes, b64DecodeBytes,
      b64Index_b64Char _ h1, b64Index_b64Char _ h2]
    simp only [Option.some.injEq, List.cons.injEq, and_true, if_true, reduceIte,
      List.nil_eq, and_self]
    omega
  | [a, b], h => by
    have ha : a < 256 := h a (by simp)
    have hb : b < 256 := h b (by simp)
    have h1 : a / 4 < 64 := by omega
    have h2 : a % 4 * 16 + b / 16 < 64 := by omega
    have h3 : b % 16 * 4 < 64 := by omega
    simp only [b64EncodeBytes, b64DecodeBytes,
      b64Index_b64Char _ h1, b64Index_b64Char _ h2]
    rw [if_neg (b64Char_ne_eq _ h3)]
    simp only [b64Index_b64Char _ h3, reduceIte, Option.some.injEq, List.cons.injEq,
      and_true]
    constructor <;> omega
  | [a, b, c], h => by
    have ha : a < 256 := h a (by simp)
    have hb : b < 256 := h b (by simp)
    have hc : c < 256 := h c (by simp)
    have h1 : a / 4 < 64 := by omega
    have h2 : a % 4 * 16 + b / 16 < 64 := by omega
    have h3 : b % 16 * 4 + c / 64 < 64 := by omega
    have h4 : c % 64 < 64 := by omega
    simp only [b64EncodeBytes, b64DecodeBytes,
      b64Index_b64Char _ h1, b64Index_b64Char _ h2]
    rw [if_neg (b64Char_ne_eq _ h3)]
    simp only [b64Index_b64Char _ h3]
    rw [if_neg (b64Char_ne_eq _ h4)]
    simp only [b64Index_b64Char _ h4, b64DecodeBytes, Option.some.injEq,
      List.cons.injEq, and_true]
    refine ⟨by omega, by omega, by omega⟩
  | a :: b :: c :: d :: rest, h => by
    have ha : a < 256 := h a (by simp)
    have hb : b < 256 := h b (by simp)
    have hc : c < 256 := h c (by simp)
    have h1 : a / 4 < 64 := by omega
    have h2 : a % 4 * 16 + b / 16 < 64 := by omega
    have h3 : b % 16 * 4 + c / 64 < 64 := by omega
    have h4 : c % 64 < 64 := by omega
    have ih := b64_decode_encode (d :: rest) (fun x hx => h x (by simp_all))
    simp only [b64EncodeBytes, b64DecodeBytes,
      b64Index_b64Char _ h1, b64Index_b64Char _ h2]
    rw [if_neg (b64Char_ne_eq _ h3)]
    simp only [b64Index_b64Char _ h3]
    rw [if_neg (b64Char_ne_eq _ h4)]
    simp only [b64Index_b64Char _ h4]
    simp only [b64EncodeBytes] at ih
    rw [ih]
    simp only [Option.some.injEq, List.cons.injEq, and_true]
    refine ⟨by omega, by omega, by omega⟩

theorem string_mk_toList (s : String) : String.mk s.toList = s := rfl

theorem atob_btoa (s : String) (h : latin1 s = true) :
    ∃ t, btoa s = some t ∧ atob t = some s := by
  refine ⟨String.mk (b64EncodeBytes (s.toList.map Char.toNat)), ?_, ?_⟩
  · simp [btoa, h]
  · have hall : ∀ c ∈ s.toList, c.toNat < 256 := by
      simpa [latin1, List.all_eq_true] using h
    have hb : ∀ b ∈ s.toList.map Char.toNat, b < 256 := by
      intro b hb
      simp only [List.mem_map] at hb
      obtain ⟨c, hc, rfl⟩ := hb
      exact hall c hc
    simp only [atob, string_mk_toList]
    show (b64DecodeBytes (b64EncodeBytes (s.toList.map Char.toNat))).map _ = some s
    rw [b64_decode_encode _ hb]
    have hmap : (s.toList.map Char.toNat).map Char.ofNat = s.toList := by
      rw [List.map_map]
      exact (List.map_congr_left fun c _ => Char.ofNat_toNat c).trans (List.map_id _)
    simp only [Option.map]
    rw [show String.mk ((s.toList.map Char.toNat).map Char.ofNat) = String.mk s.toList
      from congrArg String.mk hmap]
    rfl

theorem hexVal_hexDigit : ∀ n : Nat, n < 16 → hexVal (hexDigit n) = some n := by decide

theorem hexVal_zero : hexVal '0' = some 0 := by decide

theorem parseJSONStringBody_escape (l rest : List Char) :
    parseJSONStringBody (jsonEscape l ++ '"' :: rest) = some (l, rest) := by
  induction l with
  | nil =>
    show parseJSONStringBody (([] : List (List Char)).flatten ++ '"' :: rest) = _
    rw [List.flatten_nil, List.nil_append, parseJSONStringBody.eq_def]
    simp
  | cons c tl ih =>
    have hstep : jsonEscape (c :: tl) = jsonEscapeChar c ++ jsonEscape tl := by
      simp [jsonEscape]
    rw [hstep, List.append_assoc]
    unfold jsonEscapeChar
    split_ifs with h1 h2 h3 h4 h5 h6 h7 h8
    · subst h1
      rw [List.cons_append, List.cons_append, List.nil_append,
        parseJSONStringBody.eq_def]
      simp [ih]
    · subst h2
      rw [List.cons_append, List.cons_append, List.nil_append,
        parseJSONStringBody.eq_def]
      simp [ih]
    · subst h3
      rw [List.cons_append, List.cons_append, List.nil_append,
        parseJSONStringBody.eq_def]
      simp [ih]
    · subst h4
      rw [List.cons_append, List.cons_append, List.nil_append,
        parseJSONStringBody.eq_def]
      simp [ih]
    · subst h5
      rw [List.cons_append, List.cons_append, List.nil_append,
        parseJSONStringBody.eq_def]
      simp [ih]
    · subst h6
      rw [List.cons_append, List.cons_append, List.nil_append,
        parseJSONStringBody.eq_def]
      simp [ih]
    · subst h7
      rw [List.cons_append, List.cons_append, List.nil_append,
        parseJSONStringBody.eq_def]
      simp [ih]
    · -- unicode escape for a control character
      have hh : c.toNat / 16 < 16 := by omega
      have hl : c.toNat % 16 < 16 := by omega
      simp only [List.cons_append, List.nil_append]
      rw [parseJSONStringBody.eq_def]
      have hc : c.toNat / 16 * 16 + c.toNat % 16 = c.toNat := by omega
      simp [hexVal_zero, hexVal_hexDigit _ hh, hexVal_hexDigit _ hl, ih, hc,
        Char.ofNat_toNat]
    · -- a plain character passes through unescaped
      simp only [List.cons_append, List.nil_append]
      rw [parseJSONStringBody.eq_def]
      simp [h1, h2, ih]

theorem toList_mk (l : List Char) : (String.mk l).toList = l := rfl

theorem hexDigit_lt (n : Nat) : (hexDigit n).toNat < 256 := by
  unfold hexDigit
  split_ifs with h1 h2
  · interval_cases n <;> decide
  · interval_cases n <;> decide
  · decide

theorem jsonEscapeChar_lt (c : Char) (h : c.toNat < 256) :
    ∀ x ∈ jsonEscapeChar c, x.toNat < 256 := by
  unfold jsonEscapeChar
  split_ifs <;> intro x hx <;> simp only [List.mem_cons, List.mem_singleton,
    List.not_mem_nil, or_false] at hx
  all_goals first
  | (rcases hx with rfl | rfl <;> decide)
  | (rcases hx with rfl | rfl | rfl | rfl | rfl | rfl
     · decide
     · decide
     · decide
     · decide
     · exact hexDigit_lt _
     · exact hexDigit_lt _)
  | (rcases hx with rfl; exact h)

theorem jsonEscape_lt (l : List Char) (h : ∀ c ∈ l, c.toNat < 256) :
    ∀ x ∈ jsonEscape l, x.toNat < 256 := by
  intro x hx
  simp only [jsonEscape, List.mem_flatten, List.mem_map] at hx
  obtain ⟨L, ⟨c, hc, rfl⟩, hxL⟩ := hx
  exact jsonEscapeChar_lt c (h c hc) x hxL

theorem latin1_jsonStringifySignal (d : SignalData)
    (ht : latin1 d.type = true) (hs : latin1 d.sdp = true) :
    latin1 (jsonStringifySignal d) = true := by
  have ht2 : ∀ c ∈ d.type.toList, c.toNat < 256 := by
    simpa [latin1, List.all_eq_true] using ht
  have hs2 : ∀ c ∈ d.sdp.toList, c.toNat < 256 := by
    simpa [latin1, List.all_eq_true] using hs
  simp only [latin1, List.all_eq_true, decide_eq_true_eq]
  intro c hc
  have hsplit : c ∈ (['\x7b', '"', 't', 'y', 'p', 'e', '"', ':', '"', '"', ',', '"',
      's', 'd', 'p', '"', ':', '"', '"', '\x7d'] : List Char) ∨
      c ∈ jsonEscape d.type.toList ∨ c ∈ jsonEscape d.sdp.toList := by
    simp only [jsonStringifySignal, toList_mk, List.mem_cons, List.mem_append,
      List.mem_singleton, List.not_mem_nil, or_false] at hc
    simp only [List.mem_cons, List.not_mem_nil, or_false]
    tauto
  rcases hsplit with h | h | h
  · fin_cases h <;> decide
  · exact jsonEscape_lt _ ht2 c h
  · exact jsonEscape_lt _ hs2 c h

theorem jsonParse_stringify (d : SignalData) :
    jsonParseSignal (jsonStringifySignal d) = some d := by
  obtain ⟨t, s⟩ := d
  unfold jsonParseSignal jsonStringifySignal
  simp only [toList_mk]
  rw [parseJSONStringBody_escape]
  simp [parseJSONStringBody_escape, string_mk_toList]

theorem decode_encode_signal (d : SignalData)
    (ht : latin1 d.type = true) (hs : latin1 d.sdp = true) :
    ∃ enc, encodeToBase64 d = some enc ∧ decodeFromBase64 enc = some d := by
  obtain ⟨enc, he, ha⟩ := atob_btoa _ (latin1_jsonStringifySignal d ht hs)
  exact ⟨enc, he, by simp [decodeFromBase64, ha, jsonParse_stringify]⟩

theorem b64Char_mem_lt : ∀ n : Nat, n < 64 → b64Char n ∈ b64Chars := by decide

theorem b64Char_mem (n : Nat) : b64Char n ∈ b64Chars := by
  by_cases h : n < 64
  · exact b64Char_mem_lt n h
  · have hs : b64Char n = '/' := by
      unfold b64Char
      rw [if_neg (by omega), if_neg (by omega), if_neg (by omega), if_neg (by omega)]
    rw [hs]
    decide

theorem b64EncodeBytes_mem :
    ∀ (bs : List Nat) (c : Char), c ∈ b64EncodeBytes bs → c ∈ b64Chars ∨ c = '='
  | [], c, h => by simp [b64EncodeBytes] at h
  | [a], c, h => by
    simp only [b64EncodeBytes, List.mem_cons, List.not_mem_nil, or_false] at h
    rcases h with rfl | rfl | rfl | rfl
    · exact .inl (b64Char_mem _)
    · exact .inl (b64Char_mem _)
    · exact .inr rfl
    · exact .inr rfl
  | [a, b], c, h => by
    simp only [b64EncodeBytes, List.mem_cons, List.not_mem_nil, or_false] at h
    rcases h with rfl | rfl | rfl | rfl
    · exact .inl (b64Char_mem _)
    · exact .inl (b64Char_mem _)
    · exact .inl (b64Char_mem _)
    · exact .inr rfl
  | a :: b :: c' :: rest, c, h => by
    simp only [b64EncodeBytes, List.mem_cons] at h
    rcases h with rfl | rfl | rfl | rfl | h
    · exact .inl (b64Char_mem _)
    · exact .inl (b64Char_mem _)
    · exact .inl (b64Char_mem _)
    · exact .inl (b64Char_mem _)
    · exact b64EncodeBytes_mem rest c h

theorem schemeRest_false (l : List Char) (h : ':' ∉ l) : schemeRest l = false := by
  induction l with
  | nil => rfl
  | cons c rest ih =>
    have hc : ¬c = ':' := fun hcc => h (hcc ▸ List.mem_cons_self c rest)
    show (if c = ':' then true
      else (c.isAlphanum || c = '+' || c = '-' || c = '.') && schemeRest rest) = false
    rw [if_neg hc]
    rw [ih (fun hm => h (List.mem_cons_of_mem c hm))]
    exact Bool.and_false _

theorem encodeToBase64_toList (d : SignalData) (enc : String)
    (h : encodeToBase64 d = some enc) :
    enc.toList = b64EncodeBytes ((jsonStringifySignal d).toList.map Char.toNat) := by
  unfold encodeToBase64 btoa at h
  split at h
  · cases h
    exact toList_mk _
  · cases h

theorem encode_not_url (d : SignalData) (enc : String)
    (h : encodeToBase64 d = some enc) : isValidUrl enc = false := by
  have hl := encodeToBase64_toList d enc h
  have hmem : ':' ∉ enc.toList := by
    intro hm
    rw [hl] at hm
    rcases b64EncodeBytes_mem _ _ hm with hin | heq
    · exact absurd hin (by decide)
    · exact absurd heq (by decide)
  unfold isValidUrl
  cases henc : enc.toList with
  | nil => rfl
  | cons c rest =>
    rw [henc] at hmem
    show (c.isAlpha && schemeRest rest) = false
    rw [schemeRest_false rest (fun hm => hmem (List.mem_cons_of_mem c hm))]
    exact Bool.and_false _

theorem b64EncodeBytes_cons_head (a : Nat) (rest : List Nat) :
    ∃ tl, b64EncodeBytes (a :: rest) = b64Char (a / 4) :: tl := by
  match rest with
  | [] => exact ⟨_, rfl⟩
  | [b] => exact ⟨_, rfl⟩
  | b :: c :: t => exact ⟨_, rfl⟩

theorem encode_head_e (d : SignalData) (enc : String)
    (h : encodeToBase64 d = some enc) : ∃ tl, enc.toList = 'e' :: tl := by
  have hl := encodeToBase64_toList d enc h
  have hj : (jsonStringifySignal d).toList.map Char.toNat =
      123 :: (('"' :: 't' :: 'y' :: 'p' :: 'e' :: '"' :: ':' :: '"' ::
        (jsonEscape d.type.toList ++ '"' :: ',' :: '"' :: 's' :: 'd' :: 'p' ::
          '"' :: ':' :: '"' :: (jsonEscape d.sdp.toList ++ ['"', '\x7d']))).map
            Char.toNat) := rfl
  rw [hj] at hl
  obtain ⟨tl, htl⟩ := b64EncodeBytes_cons_head 123 _
  rw [htl] at hl
  exact ⟨tl, by rw [hl]; rfl⟩

theorem encode_not_http (d : SignalData) (enc : String)
    (h : encodeToBase64 d = some enc) : jsStartsWith enc "http" = false := by
  obtain ⟨tl, htl⟩ := encode_head_e d enc h
  unfold jsStartsWith
  rw [htl]
  rfl

theorem isValidSignalData_mismatch (sdp t e : String) (h : (t == e) = false) :
    isValidSignalData ⟨t, sdp⟩ e = false := by
  unfold isValidSignalData
  rw [h]
  exact Bool.false_and _

/-- **C1.** For every `NegotiationPayload` of kind Offer (over `btoa`'s
Latin-1 domain), decoding its encoding while expecting kind Answer fails
with the payload-type-mismatch error (`INVALID_ANSWER`, the error
`parseAnswer` raises when `isValidSignalData(data, 'answer')` rejects the
kind), and symmetrically an encoded Answer decoded while expecting Offer
fails with `INVALID_OFFER`; decode never silently succeeds when the
envelope's kind differs from `expectedKind`. -/
theorem decode_rejects_kind_mismatch (sdp : String) (hl : latin1 sdp = true) :
    ∃ encO encA,
      codecEncode ⟨"offer", sdp⟩ = some encO ∧
      codecEncode ⟨"answer", sdp⟩ = some encA ∧
      codecDecode encO "answer" = .error INVALID_ANSWER ∧
      codecDecode encA "offer" = .error INVALID_OFFER := by
  obtain ⟨encO, heO, hdO⟩ :=
    decode_encode_signal ⟨"offer", sdp⟩ (show latin1 "offer" = true by decide) hl
  obtain ⟨encA, heA, hdA⟩ :=
    decode_encode_signal ⟨"answer", sdp⟩ (show latin1 "answer" = true by decide) hl
  refine ⟨encO, encA, heO, heA, ?_, ?_⟩
  · unfold codecDecode
    rw [if_neg (by decide)]
    unfold parseAnswer
    rw [hdO]
    simp [isValidSignalData_mismatch sdp "offer" "answer" (by decide)]
  · unfold codecDecode
    rw [if_pos rfl]
    unfold parseOffer
    rw [encode_not_url _ _ heA]
    simp only [Bool.false_eq_true, if_false]
    rw [hdA]
    simp [isValidSignalData_mismatch sdp "answer" "offer" (by decide)]

/-- Witness for `decode_rejects_kind_mismatch` at `sdp = "v=0"`. -/
theorem decode_rejects_kind_mismatch_witness :
    latin1 "v=0" = true ∧
    ∃ encO encA,
      codecEncode ⟨"offer", "v=0"⟩ = some encO ∧
      codecEncode ⟨"answer", "v=0"⟩ = some encA ∧
      codecDecode encO "answer" = .error INVALID_ANSWER ∧
      codecDecode encA "offer" = .error INVALID_OFFER :=
  ⟨by decide, decode_rejects_kind_mismatch "v=0" (by decide)⟩

/-- **C2.** For every valid `NegotiationPayload` (kind Offer or Answer,
non-empty `sessionDescriptor`, over `btoa`'s Latin-1 domain),
`decode(encode(P), P.kind)` returns `P`, and the JSON envelope string
round-trips byte-for-byte through the base64 encode/decode pair
(`atob enc` returns exactly the `JSON.stringify` output). -/
theorem encode_decode_roundtrip (kind sdp : String)
    (hk : kind = "offer" ∨ kind = "answer") (hs : sdp ≠ "")
    (hl : latin1 sdp = true) :
    ∃ enc, codecEncode ⟨kind, sdp⟩ = some enc ∧
      atob enc = some (jsonStringifySignal ⟨kind, sdp⟩) ∧
      codecDecode enc kind = .ok ⟨kind, sdp⟩ := by
  have hkl : latin1 kind = true := by rcases hk with rfl | rfl <;> decide
  obtain ⟨enc, he, ha⟩ := atob_btoa _ (latin1_jsonStringifySignal ⟨kind, sdp⟩ hkl hl)
  have hd : decodeFromBase64 enc = some ⟨kind, sdp⟩ := by
    simp [decodeFromBase64, ha, jsonParse_stringify]
  have hlen : 0 < sdp.length := by
    cases sdp with
    | mk data =>
      cases data with
      | nil => exact absurd rfl hs
      | cons a l =>
        simp only [String.length, List.length_cons]
        omega
  have hv : isValidSignalData ⟨kind, sdp⟩ kind = true := by
    unfold isValidSignalData
    simp [hlen]
  refine ⟨enc, he, ha, ?_⟩
  rcases hk with rfl | rfl
  · unfold codecDecode
    rw [if_pos rfl]
    unfold parseOffer
    rw [encode_not_url _ _ he]
    simp only [Bool.false_eq_true, if_false]
    rw [hd]
    simp [hv]
  · unfold codecDecode
    rw [if_neg (by decide)]
    unfold parseAnswer
    rw [hd]
    simp [hv]

/-- Witness for `encode_decode_roundtrip` at `kind = "offer"`,
`sdp = "v=0"`. -/
theorem encode_decode_roundtrip_witness :
    (("offer" : String) = "offer" ∨ ("offer" : String) = "answer") ∧
    ("v=0" : String) ≠ "" ∧ latin1 "v=0" = true ∧
    ∃ enc, codecEncode ⟨"offer", "v=0"⟩ = some enc ∧
      atob enc = some (jsonStringifySignal ⟨"offer", "v=0"⟩) ∧
      codecDecode enc "offer" = .ok ⟨"offer", "v=0"⟩ :=
  ⟨.inl rfl, by decide, by decide,
    encode_decode_roundtrip "offer" "v=0" (.inl rfl) (by decide) (by decide)⟩

/-- **C9.** The QR error-correction selection is monotonically
non-increasing in payload size: a string no longer than another receives
an error-correction level at least as robust (H > Q > M > L). -/
theorem qr_ec_monotone (a b : String) (h : a.length ≤ b.length) :
    ecRobustness (getOptimalQRErrorCorrection b) ≤
      ecRobustness (getOptimalQRErrorCorrection a) := by
  unfold getOptimalQRErrorCorrection
  split_ifs <;>
    simp only [show ecRobustness "H" = 3 from rfl, show ecRobustness "Q" = 2 from rfl,
      show ecRobustness "M" = 1 from rfl, show ecRobustness "L" = 0 from rfl] <;>
    omega

set_option maxRecDepth 4000 in
/-- Witness for `qr_ec_monotone`: a 2-character payload (level H) versus a
600-character payload (level Q). -/
theorem qr_ec_monotone_witness :
    ("ab" : String).length ≤ (String.mk (List.replicate 600 'a')).length ∧
    ecRobustness (getOptimalQRErrorCorrection (String.mk (List.replicate 600 'a'))) ≤
      ecRobustness (getOptimalQRErrorCorrection "ab") :=
  ⟨by decide, qr_ec_monotone _ _ (by decide)⟩

/-- **C6.** `waitForICECandidates` always terminates: its promise resolves
no later than `CONFIG.ICE_GATHERING_TIMEOUT` (= 5000 ms); when gathering
never reaches `complete`, the fallback timer resolves it at exactly the
timeout and negotiation proceeds with the candidates gathered so far. -/
theorem wait_for_ice_terminates (initial : IceGatheringState)
    (events : List (Nat × IceGatheringState)) :
    waitForICEResolveTime initial events ≤ ICE_GATHERING_TIMEOUT ∧
    (initial ≠ .complete → firstCompleteTime events = none →
      waitForICEResolveTime initial events = ICE_GATHERING_TIMEOUT) ∧
    ICE_GATHERING_TIMEOUT = 5000 := by
  refine ⟨?_, ?_, rfl⟩
  · unfold waitForICEResolveTime
    split
    · exact Nat.zero_le _
    · split
      · exact Nat.min_le_right _ _
      · exact Nat.le_refl _
  · intro h1 h2
    unfold waitForICEResolveTime
    rw [if_neg h1, h2]

/-- Witness for `wait_for_ice_terminates`: gathering that never completes
resolves exactly at the timeout. -/
theorem wait_for_ice_terminates_witness :
    waitForICEResolveTime .new [(1000, .gathering)] = ICE_GATHERING_TIMEOUT :=
  (wait_for_ice_terminates .new [(1000, .gathering)]).2.1 (by decide) rfl

/-- **C5 counterexample.** One remote candidate arriving before the media
peer connection exists and one after (N = 1, M = 1): only the later one is
applied — `handleRemoteICECandidate` keeps no queue, so the claim's
"all N+M candidates are applied" fails. -/
theorem early_candidate_dropped :
    runMediaCandidateEvents none
        [.candidate 0, .negotiatorReady, .candidate 1] = some ⟨[1]⟩ ∧
    runMediaCandidateEvents none
        [.candidate 0, .negotiatorReady, .candidate 1] ≠ some ⟨[0, 1]⟩ := by
  decide

theorem runMedia_skip_before_ready (before : List Nat)
    (evs : List MediaCandidateEvent) :
    runMediaCandidateEvents none (before.map .candidate ++ evs) =
      runMediaCandidateEvents none evs := by
  induction before with
  | nil => rfl
  | cons c rest ih =>
    simpa [runMediaCandidateEvents, handleRemoteICECandidate] using ih

theorem runMedia_applies_in_order (l after : List Nat) :
    runMediaCandidateEvents (some ⟨l⟩) (after.map .candidate) =
      some ⟨l ++ after⟩ := by
  induction after generalizing l with
  | nil => simp [runMediaCandidateEvents]
  | cons c rest ih =>
    simp [runMediaCandidateEvents, handleRemoteICECandidate, ih]

/-- **C5 amended.** `handleRemoteICECandidate` keeps no pending queue:
remote media candidates arriving before the media peer connection exists
are silently dropped, and exactly the candidates arriving after it exists
are applied, in arrival order with no loss or reordering among them. -/
theorem candidates_after_ready_applied (before after : List Nat) :
    runMediaCandidateEvents none
      (before.map .candidate ++ .negotiatorReady :: after.map .candidate) =
      some ⟨after⟩ := by
  rw [runMedia_skip_before_ready]
  show runMediaCandidateEvents (some ⟨[]⟩) (after.map .candidate) = some ⟨after⟩
  simpa using runMedia_applies_in_order [] after

theorem bool_and_true_left (a b : Bool) (h : (a && b) = true) : a = true := by
  revert h
  cases a <;> cases b <;> simp

theorem bool_and_true_right (a b : Bool) (h : (a && b) = true) : b = true := by
  revert h
  cases a <;> cases b <;> simp

theorem sysStep_preserves_inv (s : SysState) (e : SysEvent) (h : sysInv s) :
    sysInv (sysStep s e) := by
  obtain ⟨h1, h2, h3, h4, h5, h6⟩ := h
  cases e
  case startAsInitiator =>
    refine ⟨h1, h2, h3, h4, ?_, h6⟩
    intro m hm
    rcases List.mem_append.mp hm with hm | hm
    · exact h5 m hm
    · rw [List.mem_singleton] at hm
      exact .inl hm
  case offerFromHash =>
    refine ⟨h1, h2, h3, h4, ?_, h6⟩
    intro m hm
    rcases List.mem_append.mp hm with hm | hm
    · exact h5 m hm
    · rw [List.mem_singleton] at hm
      exact .inr hm
  case pcConnected =>
    show sysInv (if s.pc && !s.connectionEstablished then _ else s)
    split_ifs with hc
    · exact ⟨fun _ => rfl, fun _ => rfl, fun _ => rfl, fun _ => rfl, h5, h6⟩
    · exact ⟨h1, h2, h3, h4, h5, h6⟩
  case mediaDelayElapsed =>
    show sysInv
      (if s.mediaNegotiationPending then
        if s.localStream then
          if s.role = some "initiator" then
            if s.dataChannelOpen then _ else _
          else _
        else _
      else s)
    split_ifs with hp hls hrole hdc
    · have hev : s.everConnected = true := h2 hp
      refine ⟨fun _ => hev, fun _ => hev, fun _ => hev, fun _ => hev, h5, ?_⟩
      intro m hm
      rcases List.mem_append.mp hm with hm | hm
      · exact h6 m hm
      · rw [List.mem_singleton] at hm
        exact .inl hm
    · have hev : s.everConnected = true := h2 hp
      exact ⟨fun _ => hev, fun _ => hev, fun _ => hev, fun _ => hev, h5, h6⟩
    · exact ⟨h1, fun _ => h2 hp, h3, h4, h5, h6⟩
    · exact ⟨h1, fun _ => h2 hp, h3, h4, h5, h6⟩
    · exact ⟨h1, h2, h3, h4, h5, h6⟩
  case dataChannelOpened =>
    show sysInv (if s.pc && s.connectionEstablished then _ else s)
    split_ifs with hc
    · have hev : s.everConnected = true := h3 (bool_and_true_right _ _ hc)
      exact ⟨h1, h2, h3, fun _ => hev, h5, h6⟩
    · exact ⟨h1, h2, h3, h4, h5, h6⟩
  case dcMediaOffer =>
    show sysInv (if s.dataChannelOpen && s.localStream then _ else s)
    split_ifs with hc
    · have hev : s.everConnected = true := h4 (bool_and_true_left _ _ hc)
      refine ⟨fun _ => hev, h2, h3, h4, h5, ?_⟩
      intro m hm
      rcases List.mem_append.mp hm with hm | hm
      · exact h6 m hm
      · rw [List.mem_singleton] at hm
        exact .inr hm
    · exact ⟨h1, h2, h3, h4, h5, h6⟩
  case dcMediaAnswer => exact ⟨h1, h2, h3, h4, h5, h6⟩
  case reset =>
    exact ⟨fun hq => absurd hq Bool.false_ne_true,
      h2, fun hq => absurd hq Bool.false_ne_true,
      fun hq => absurd hq Bool.false_ne_true, h5, h6⟩

theorem sysRun_inv (events : List SysEvent) : sysInv (sysRun events) := by
  have hgen : ∀ (evs : List SysEvent) (s : SysState),
      sysInv s → sysInv (evs.foldl sysStep s) := by
    intro evs
    induction evs with
    | nil => exact fun s hs => hs
    | cons e rest ih => exact fun s hs => ih _ (sysStep_preserves_inv s e hs)
  refine hgen events sysInit
    ⟨fun hq => absurd hq Bool.false_ne_true, fun hq => absurd hq Bool.false_ne_true,
     fun hq => absurd hq Bool.false_ne_true, fun hq => absurd hq Bool.false_ne_true,
     fun m hm => absurd hm (List.not_mem_nil m),
     fun m hm => absurd hm (List.not_mem_nil m)⟩

/-- **C4 counterexample.** The trace "become initiator → data connection
reports connected → the 500 ms settle delay elapses before the data
channel reports open": `startMediaNegotiation` runs regardless, the media
peer connection is created (media negotiation has started) while the
control data channel is not open — the `media-offer` send then throws.
Nothing in the code gates media negotiation on the channel's open state. -/
theorem media_starts_without_open_channel :
    (sysRun [.startAsInitiator, .pcConnected, .mediaDelayElapsed]).mediaPc = true ∧
    (sysRun [.startAsInitiator, .pcConnected, .mediaDelayElapsed]).dataChannelOpen
      = false ∧
    (sysRun [.startAsInitiator, .pcConnected]).mediaPc = false := by
  decide

/-- **C4 amended.** In every reachable execution, the media peer
connection exists only after the data connection has (at some earlier
point) reported connected; the manual (copy/paste/QR) transport only ever
carries the control `offer`/`answer` payloads — never media negotiation
payloads — and media payloads are sent exclusively over the data
channel. (The stronger claim — that media negotiation cannot start while
the channel is not currently open — fails: see the counterexample.) -/
theorem media_negotiation_sequencing (events : List SysEvent) :
    ((sysRun events).mediaPc = true → (sysRun events).everConnected = true) ∧
    (∀ m ∈ (sysRun events).manualLog, m = "offer" ∨ m = "answer") ∧
    (∀ m ∈ (sysRun events).dcLog, m = "media-offer" ∨ m = "media-answer") := by
  obtain ⟨h1, _, _, _, h5, h6⟩ := sysRun_inv events
  exact ⟨h1, h5, h6⟩

/-- **C8.** Teardown is idempotent: `reset()` twice equals `reset()` once
and ends with `connectionState = "idle"`; `cleanup()` releases both peer
connections and the data channel regardless of prior state; and
`close()` (`closeConnection`) after `reset()` releases everything and
triggers the terminal page reload (the session's `Closed` outcome). All
these operations are total — every JS access on the teardown paths is
guarded by a presence check, so none of them can throw. -/
theorem teardown_idempotent (s : CtrlState) (w : WebRTCState) :
    ConnectionController.reset (ConnectionController.reset s) =
      ConnectionController.reset s ∧
    (ConnectionController.reset s).store.connectionState = "idle" ∧
    (ConnectionController.reset s).store.isProcessing = false ∧
    (WebRTCService.cleanup w).pc = false ∧
    (WebRTCService.cleanup w).mediaPc = false ∧
    (WebRTCService.cleanup w).dataChannel = false ∧
    (WebRTCService.cleanup w).connectionEstablished = false ∧
    (ConnectionController.closeConnection (ConnectionController.reset s)).reloaded
      = true ∧
    (ConnectionController.closeConnection (ConnectionController.reset s)).webrtc.pc
      = false ∧
    (ConnectionController.closeConnection
      (ConnectionController.reset s)).webrtc.mediaPc = false ∧
    (ConnectionController.closeConnection
      (ConnectionController.reset s)).webrtc.dataChannel = false := by
  refine ⟨rfl, rfl, rfl, rfl, rfl, rfl, rfl, rfl, rfl, rfl, rfl⟩

theorem startAsInitiator_guard (s : CtrlState) (r : Option String) (b2 : String)
    (h : s.store.isProcessing = true) :
    ConnectionController.startAsInitiator s r b2 = s := by
  unfold ConnectionController.startAsInitiator
  rw [if_pos h]

theorem processAnswer_guard (s : CtrlState) (code : String)
    (h : s.store.isProcessing = true) :
    ConnectionController.processAnswer s code = s := by
  unfold ConnectionController.processAnswer
  rw [if_pos h]

/-- **C10.** After `startAsInitiator` completes successfully,
`store.state.isProcessing` remains `true` while `isLoading` is cleared;
every subsequent guarded operation (`processAnswer`, a second
`startAsInitiator`) returns immediately with the state unchanged; and
exactly `connectEstablished`, `connectionFailed` and `reset` clear the
flag. The same holds for a successful `handleOfferFromHash` (final
conjunct). -/
theorem isProcessing_persists (s : CtrlState) (sdp base url : String)
    (hp : s.store.isProcessing = false)
    (hco : createOfferUrl base sdp = some url) :
    (ConnectionController.startAsInitiator s (some sdp) base).store.isProcessing
      = true ∧
    (ConnectionController.startAsInitiator s (some sdp) base).store.isLoading
      = false ∧
    (∀ code, ConnectionController.processAnswer
        (ConnectionController.startAsInitiator s (some sdp) base) code =
      ConnectionController.startAsInitiator s (some sdp) base) ∧
    (∀ r b2, ConnectionController.startAsInitiator
        (ConnectionController.startAsInitiator s (some sdp) base) r b2 =
      ConnectionController.startAsInitiator s (some sdp) base) ∧
    (Actions.connectEstablished
        (ConnectionController.startAsInitiator s (some sdp) base).store).isProcessing
      = false ∧
    (∀ e, (Actions.connectionFailed
        (ConnectionController.startAsInitiator s (some sdp) base).store
        e).isProcessing = false) ∧
    (Mutations.reset
        (ConnectionController.startAsInitiator s (some sdp) base).store).isProcessing
      = false ∧
    (∀ d asdp code, getOfferFromHash s.urlHash = some d →
      createAnswerCode asdp = some code →
      (ConnectionController.handleOfferFromHash s (some asdp)).store.isProcessing
        = true ∧
      (ConnectionController.handleOfferFromHash s (some asdp)).store.isLoading
        = false) := by
  have hstart : ConnectionController.startAsInitiator s (some sdp) base =
      { s with
        webrtc := { s.webrtc with role := some "initiator", pc := true }
        store := { s.store with
          isProcessing := true
          isLoading := false
          role := some "initiator"
          offerUrl := some url
          buttonState := "initiator-share" } } := by
    unfold ConnectionController.startAsInitiator
    rw [if_neg (by rw [hp]; exact Bool.false_ne_true)]
    simp [hco]
  refine ⟨by rw [hstart], by rw [hstart], ?_, ?_, by rw [hstart]; rfl,
    fun e => by rw [hstart]; rfl, by rw [hstart]; rfl, ?_⟩
  · exact fun code => processAnswer_guard _ code (by rw [hstart])
  · exact fun r b2 => startAsInitiator_guard _ r b2 (by rw [hstart])
  · intro d asdp code hhash hcode
    unfold ConnectionController.handleOfferFromHash
    simp only [hhash, hcode]
    exact ⟨trivial, trivial⟩

/-- Witness for `isProcessing_persists` at the initial store state with a
concrete offer. -/
theorem isProcessing_persists_witness :
    (⟨⟨false, false, false, none, false⟩, initialStoreState, none, false⟩ :
        CtrlState).store.isProcessing = false ∧
    createOfferUrl "http://h/" "v=0" =
      some ((createOfferUrl "http://h/" "v=0").getD "") ∧
    (ConnectionController.startAsInitiator
      ⟨⟨false, false, false, none, false⟩, initialStoreState, none, false⟩
      (some "v=0") "http://h/").store.isProcessing = true :=
  ⟨rfl, by decide,
    (isProcessing_persists
      ⟨⟨false, false, false, none, false⟩, initialStoreState, none, false⟩
      "v=0" "http://h/" ((createOfferUrl "http://h/" "v=0").getD "")
      rfl (by decide)).1⟩

/-- **C3 counterexample.** A QR image whose pixels decode to a URL whose
fragment is an *answer* envelope: `decodeQRFromBlob(…, 'offer')` accepts
it (the offer-context URL branch of `validateDecodedQR` checks only that a
non-empty fragment exists), while the Signaling Codec's decode with
`expectedKind = offer` (`parseOffer`) rejects the very same decoded
string with `INVALID_OFFER`. So the returned result has *not* passed the
kind-validation of `parseOffer`/`parseAnswer`. -/
theorem qr_decode_bypasses_codec_validation :
    decodeQRFromBlob
        (some ("http://e/#" ++ (createAnswerCode "v=0").getD "")) "offer" =
      .ok ⟨"offer", (createAnswerCode "v=0").getD "",
        "http://e/#" ++ (createAnswerCode "v=0").getD ""⟩ ∧
    codecDecode ("http://e/#" ++ (createAnswerCode "v=0").getD "") "offer" =
      .error INVALID_OFFER := by
  exact ⟨rfl, rfl⟩

/-- **C3 amended.** `decodeQRFromBlob` routes the pixel-decoded string
through `validateDecodedQR`, not through the codec's `decode`: in the
answer context, and in the offer context for non-URL strings, an accepted
result implies the decoded JSON's `type` field equals the expected kind
(the `sdp` field is never checked); in the offer context a URL string is
accepted whenever it has a non-empty fragment, without kind validation —
full codec validation happens only later, at `parseOffer`/`parseAnswer`
in the controller. -/
theorem validateDecodedQR_kind_check (decoded ctx : String) (r : QRResult)
    (hok : validateDecodedQR decoded ctx = .ok r) :
    (ctx = "answer" → ∃ d, (atob decoded).bind jsonParseSignal = some d ∧
      d.type = "answer" ∧ r.data = decoded) ∧
    (ctx = "offer" → jsStartsWith decoded "http" = true ∨
      ∃ d, (atob decoded).bind jsonParseSignal = some d ∧
        d.type = "offer" ∧ r.data = decoded) := by
  constructor
  · rintro rfl
    unfold validateDecodedQR at hok
    rw [if_neg (show ¬(("answer" : String) = "offer") by decide), if_pos rfl] at hok
    split at hok
    · cases hok
    · split at hok
      case _ data heq =>
        split at hok
        case isTrue htype =>
          cases hok
          exact ⟨data, heq, htype, rfl⟩
        case isFalse => cases hok
      case _ => cases hok
  · rintro rfl
    unfold validateDecodedQR at hok
    rw [if_pos rfl] at hok
    split at hok
    case isTrue hh => exact .inl hh
    case isFalse hh =>
      split at hok
      case _ data heq =>
        split at hok
        case isTrue htype =>
          cases hok
          exact .inr ⟨data, heq, htype, rfl⟩
        case isFalse => cases hok
      case _ => cases hok

/-- Witness for `validateDecodedQR_kind_check`: a concrete answer envelope
accepted in the answer context. -/
theorem validateDecodedQR_kind_check_witness :
    validateDecodedQR ((createAnswerCode "v=0").getD "") "answer" =
      .ok ⟨"answer", (createAnswerCode "v=0").getD "",
        (createAnswerCode "v=0").getD ""⟩ ∧
    ∃ d, (atob ((createAnswerCode "v=0").getD "")).bind jsonParseSignal = some d ∧
      d.type = "answer" ∧
      (⟨"answer", (createAnswerCode "v=0").getD "",
        (createAnswerCode "v=0").getD ""⟩ : QRResult).data =
        (createAnswerCode "v=0").getD "" :=
  ⟨rfl,
    (validateDecodedQR_kind_check ((createAnswerCode "v=0").getD "") "answer"
      ⟨"answer", (createAnswerCode "v=0").getD "",
        (createAnswerCode "v=0").getD ""⟩ rfl).1 rfl⟩

/-- **C7.** When a Responder scans/pastes a payload of kind Answer while
expecting an Offer, `processQRCode(…, 'offer')` fails with the wrong-type
error and returns with the controller state exactly unchanged (still the
input state — in particular no peer connection is created), and the codec
path `parseOffer` rejects the same envelope with `INVALID_OFFER`. -/
theorem wrong_artifact_rejected (s : CtrlState) (sdp : String)
    (asdp : Option String) (hl : latin1 sdp = true) :
    ∃ enc, createAnswerCode sdp = some enc ∧
      ConnectionController.processQRCode s (some enc) "offer" asdp =
        (s, .error QR_WRONG_TYPE_OFFER) ∧
      parseOffer enc = .error INVALID_OFFER := by
  obtain ⟨enc, he, hd⟩ :=
    decode_encode_signal ⟨"answer", sdp⟩ (show latin1 "answer" = true by decide) hl
  have hv : validateDecodedQR enc "offer" = .error QR_WRONG_TYPE_OFFER := by
    unfold validateDecodedQR
    rw [if_pos rfl]
    rw [encode_not_http _ _ he]
    simp only [Bool.false_eq_true, if_false]
    rw [show (atob enc).bind jsonParseSignal = some ⟨"answer", sdp⟩ from hd]
    simp
  have hq : decodeQRFromBlob (some enc) "offer" = .error QR_WRONG_TYPE_OFFER := by
    unfold decodeQRFromBlob
    exact hv
  refine ⟨enc, he, ?_, ?_⟩
  · unfold ConnectionController.processQRCode
    rw [hq]
  · unfold parseOffer
    rw [encode_not_url _ _ he]
    simp only [Bool.false_eq_true, if_false]
    rw [hd]
    simp [isValidSignalData_mismatch sdp "answer" "offer" (by decide)]

/-- Witness for `wrong_artifact_rejected`: the initial (Idle) controller
state and a concrete answer envelope. -/
theorem wrong_artifact_rejected_witness :
    latin1 "v=0" = true ∧
    ∃ enc, createAnswerCode "v=0" = some enc ∧
      ConnectionController.processQRCode
        (⟨⟨false, false, false, none, false⟩, initialStoreState, none, false⟩ :
          CtrlState) (some enc) "offer" none =
        ((⟨⟨false, false, false, none, false⟩, initialStoreState, none, false⟩ :
          CtrlState), .error QR_WRONG_TYPE_OFFER) ∧
      parseOffer enc = .error INVALID_OFFER :=
  ⟨by decide, wrong_artifact_rejected _ "v=0" none (by decide)⟩
